import Mathlib

/-!
# Verification of the `resources` process-data collector

A shallow embedding of `lib/process_data/src/lib.rs` from the `resources`
system monitor.  Strings are modelled as `List Char` (Rust `str` handling in
this crate is character-wise or on ASCII byte boundaries, so the two views
coincide on every code path embedded here).  Machine integers are `Nat` with
explicit bounds or wraparound where the Rust arithmetic saturates or wraps.
Filesystem and syscall results (file contents, open/stat outcomes, the
`kcmp` syscall, NVML query results) are inputs to the embedded functions:
they are the IO boundary of the original code.
-/

namespace Resources

/-! ## Machine-integer helpers -/

/-- Largest `usize`/`u64` value (the crate targets 64-bit Linux). -/
def usizeMax : Nat := 2 ^ 64 - 1

/-- Rust `usize::saturating_mul`. -/
def satMul64 (a b : Nat) : Nat := min (a * b) usizeMax

/-- Rust `usize::saturating_sub` (Nat subtraction already saturates at zero). -/
def satSub (a b : Nat) : Nat := a - b

/-- Wrapping `u32` addition (release-mode Rust `+` on `u32`). -/
def addU32 (a b : Nat) : Nat := (a + b) % 2 ^ 32

/-- Wrapping `u64` addition (release-mode Rust `+` on `u64`). -/
def addU64 (a b : Nat) : Nat := (a + b) % 2 ^ 64

/-! ## Character and string primitives -/

/-- Decimal digit value, `None` for a non-digit: Rust `char::to_digit(10)`. -/
def digitVal (c : Char) : Option Nat :=
  if '0' ≤ c ∧ c ≤ '9' then some (c.toNat - 48) else none

/-- Hexadecimal digit value, `None` for a non-hex-digit:
Rust `char::to_digit(16)`. -/
def hexVal (c : Char) : Option Nat :=
  if '0' ≤ c ∧ c ≤ '9' then some (c.toNat - 48)
  else if 'a' ≤ c ∧ c ≤ 'f' then some (c.toNat - 97 + 10)
  else if 'A' ≤ c ∧ c ≤ 'F' then some (c.toNat - 65 + 10)
  else none

def isDigitChar (c : Char) : Bool := decide ('0' ≤ c ∧ c ≤ '9')

def isHexChar (c : Char) : Bool := (hexVal c).isSome

/-- The characters matched by the regex class `\s` on the inputs at hand. -/
def isSpaceChar (c : Char) : Bool :=
  c = ' ' || c = '\t' || c = '\n' || c = '\x0d' || c = '\x0b' || c = '\x0c'

/-- Does `l` start with `p`? -/
def lstarts : List Char → List Char → Bool
  | _, [] => true
  | [], _ :: _ => false
  | a :: as, b :: bs => a = b && lstarts as bs

/-- Does `l` end with `s`? -/
def lends (l s : List Char) : Bool := lstarts l.reverse s.reverse

/-- Does `hay` contain `needle` as a contiguous run?  (Rust `str::contains`.) -/
def hasSub (needle : List Char) : List Char → Bool
  | [] => lstarts [] needle
  | c :: rest => lstarts (c :: rest) needle || hasSub needle rest

/-- Split on a separator character, keeping empty pieces: Rust
`str::split(sep)`.  The result is always non-empty. -/
def splitChar (sep : Char) : List Char → List (List Char)
  | [] => [[]]
  | c :: rest =>
    if c = sep then [] :: splitChar sep rest
    else
      match splitChar sep rest with
      | [] => [[c]]
      | h :: t => (c :: h) :: t

/-- Accumulate the value of a digit run (the run is already known to be all
digits when this is used; a non-digit aborts with `none`). -/
def digitsVal : List Char → Option Nat → Option Nat
  | [], acc => acc
  | c :: rest, acc =>
    match acc, digitVal c with
    | some a, some d => digitsVal rest (some (a * 10 + d))
    | _, _ => none

/-- Rust `str::parse::<uN>()` for a `w`-bit unsigned integer: an optional
leading `+`, then at least one decimal digit, value within bounds. -/
def rustParseUInt (w : Nat) (l : List Char) : Option Nat :=
  let l := match l with
    | '+' :: t => t
    | t => t
  match l with
  | [] => none
  | _ =>
    match digitsVal l (some 0) with
    | some v => if v < 2 ^ w then some v else none
    | none => none

/-! ## `Niceness` (`#[nutype(validate(less_or_equal = 19),
validate(greater_or_equal = -20))] pub struct Niceness(i8)`).

`nutype` generates `Niceness::try_new` / `TryFrom<i8>` that accepts an `i8`
exactly when both validators hold, and a `Deref` to the stored `i8`. -/

/-- Rust `Niceness::try_from(n)` for an `i8` input `n`, returning the stored
(dereferenceable) value on success. -/
def nicenessTryFrom (n : Int) : Option Int :=
  if n ≤ 19 then
    if -20 ≤ n then some n else none
  else none

/-! ## Containerization (`try_from_path`, containerization detection)

```rust
let containerization = if commandline.starts_with("/snap/") {
    Containerization::Snap
} else if proc_path.join("root").join(".flatpak-info").exists() {
    Containerization::Flatpak
} else {
    Containerization::None
};
```
The existence test on `<root>/.flatpak-info` is filesystem input. -/

inductive Containerization where
  | none
  | flatpak
  | snap
  deriving DecidableEq, Repr

def containerization (commandline : List Char) (flatpakInfoExists : Bool) :
    Containerization :=
  if lstarts commandline "/snap/".toList then Containerization.snap
  else if flatpakInfoExists then Containerization.flatpak
  else Containerization.none

/-! ## `statm` memory usage (`try_from_path`)

```rust
let statm = statm.split(' ').collect::<Vec<_>>();
...
let memory_usage = statm.get(1) ...parse::<usize>()?
    .saturating_sub(statm.get(2) ...parse::<usize>()?)
    .saturating_mul(*PAGESIZE);
```
A missing or unparsable field is a hard failure (`Err`), modelled as
`none`. -/

/-- The arithmetic applied to the two parsed `statm` fields. -/
def memFromPages (resident shared pagesize : Nat) : Nat :=
  satMul64 (satSub resident shared) pagesize

/-- Field extraction, parsing and arithmetic for `memory_usage`. -/
def statmMemoryUsage (statm : List Char) (pagesize : Nat) : Option Nat :=
  let fields := splitChar ' ' statm
  match fields.get? 1 with
  | none => none
  | some f1 =>
    match rustParseUInt 64 f1 with
    | none => none
    | some resident =>
      match fields.get? 2 with
      | none => none
      | some f2 =>
        match rustParseUInt 64 f2 with
        | none => none
        | some shared => some (memFromPages resident shared pagesize)

/-! ## Regex capture scanners over `status`

The crate extracts fields from `status` with `lazy_regex` patterns of the
shape `literal \s* (run+)`.  For such a pattern the regex engine's
leftmost-first match is: scan positions left to right; at the first position
where the literal matches and is followed by optional whitespace and at
least one run character, capture the maximal run. -/

/-- First capture of `lit\s*(run+)` in `hay`, where `run` is the character
class `isRun`. -/
def captureAfter (lit : List Char) (isRun : Char → Bool) :
    List Char → Option (List Char)
  | [] => none
  | c :: rest =>
    if lstarts (c :: rest) lit then
      let after := (c :: rest).drop lit.length
      let afterWs := after.dropWhile isSpaceChar
      let run := afterWs.takeWhile isRun
      match run with
      | [] => captureAfter lit isRun rest
      | _ => some run
    else captureAfter lit isRun rest

/-- Capture of `RE_UID = Uid:\s*(\d+)`. -/
def uidCapture (status : List Char) : Option (List Char) :=
  captureAfter "Uid:".toList isDigitChar status

/-- Capture of `RE_AFFINITY = Cpus_allowed:\s*([0-9A-Fa-f]+)`. -/
def affinityCapture (status : List Char) : Option (List Char) :=
  captureAfter "Cpus_allowed:".toList isHexChar status

/-! ## UID extraction and user resolution

```rust
fn get_uid(proc_path: &Path) -> Result<u32> {
    let status = std::fs::read_to_string(proc_path.join("status"))?;
    if let Some(captures) = RE_UID.captures(&status) {
        let first_num_str = captures.get(1).context("no uid found")?;
        first_num_str.as_str().parse::<u32>()
            .context("couldn't parse uid in /status")
    } else { Ok(0) }
}
```
and in `try_from_path` (the `?` propagates a `get_uid` error, failing the
snapshot):
```rust
let user = USERS_CACHE.get(&Self::get_uid(proc_path)?).cloned()
    .unwrap_or(String::from("root"));
```
-/

/-- Embedded `get_uid` on already-read `status` content. -/
def get_uid (status : List Char) : Except Unit Nat :=
  match uidCapture status with
  | some digs =>
    match rustParseUInt 32 digs with
    | some v => Except.ok v
    | none => Except.error ()
  | none => Except.ok 0

/-- The user-database snapshot (`USERS_CACHE`): uid-to-name pairs. -/
def lookupUser (cache : List (Nat × List Char)) (uid : Nat) :
    Option (List Char) :=
  match cache with
  | [] => none
  | (k, v) :: rest => if k = uid then some v else lookupUser rest uid

/-- The `user` computation of `try_from_path`: a `get_uid` error propagates
(the snapshot fails); an unmapped uid falls back to `"root"`. -/
def resolveUser (cache : List (Nat × List Char)) (status : List Char) :
    Except Unit (List Char) :=
  match get_uid status with
  | Except.error e => Except.error e
  | Except.ok uid =>
    match lookupUser cache uid with
    | some name => Except.ok name
    | none => Except.ok "root".toList

/-! ## CPU-affinity decoding (`try_from_path`)

```rust
let mut affinity = Vec::with_capacity(*NUM_CPUS);
RE_AFFINITY.captures(&status)
    .and_then(|captures| captures.get(1))
    .map(|capture| capture.as_str())
    .unwrap_or_default()
    .chars()
    .map(|c| c.to_digit(16).unwrap_or_default())
    .rev()
    .for_each(|int| {
        (0..4).for_each(|i| {
            if affinity.len() < *NUM_CPUS {
                affinity.push((int & (1 << i)) != 0);
            }
        });
    });
```
-/

/-- One hex digit of the mask: push its 4 bits low-to-high, capped at
`numCpus` total. -/
def pushNibble (numCpus : Nat) (acc : List Bool) (int : Nat) : List Bool :=
  (List.range 4).foldl
    (fun acc i => if acc.length < numCpus then acc ++ [int.testBit i] else acc)
    acc

/-- Decode an affinity mask string into the per-CPU flag vector. -/
def affinityFromMask (mask : List Char) (numCpus : Nat) : List Bool :=
  ((mask.map (fun c => (hexVal c).getD 0)).reverse).foldl
    (pushNibble numCpus) []

/-- The full affinity computation from `status` content: an absent
`Cpus_allowed:` capture defaults to the empty mask string. -/
def affinityFromStatus (status : List Char) (numCpus : Nat) : List Bool :=
  affinityFromMask ((affinityCapture status).getD []) numCpus

/-! ## Unit-name unescaping (the `unescape` crate)

`unescape::unescape` walks the characters; a `\` introduces one of the
escapes `\b \f \n \r \t \' \" \\` or `\uXXXX` (exactly four hex digits,
rejected if not a valid scalar value); anything else after `\` makes the
whole call return `None`. -/

/-- Rust `char::from_u32`: valid Unicode scalar values only. -/
def charFromU32 (v : Nat) : Option Char :=
  if Nat.isValidChar v then some (Char.ofNat v) else none

/-- Value of exactly four hex digits, most significant first. -/
def hex4 (a b c d : Char) : Option Nat :=
  match hexVal a, hexVal b, hexVal c, hexVal d with
  | some x, some y, some z, some w => some (((x * 16 + y) * 16 + z) * 16 + w)
  | _, _, _, _ => none

def unescapeChars : List Char → Option (List Char)
  | [] => some []
  | '\\' :: 'b' :: rest => (unescapeChars rest).map (fun t => '\x08' :: t)
  | '\\' :: 'f' :: rest => (unescapeChars rest).map (fun t => '\x0c' :: t)
  | '\\' :: 'n' :: rest => (unescapeChars rest).map (fun t => '\n' :: t)
  | '\\' :: 'r' :: rest => (unescapeChars rest).map (fun t => '\x0d' :: t)
  | '\\' :: 't' :: rest => (unescapeChars rest).map (fun t => '\t' :: t)
  | '\\' :: '\'' :: rest => (unescapeChars rest).map (fun t => '\'' :: t)
  | '\\' :: '"' :: rest => (unescapeChars rest).map (fun t => '"' :: t)
  | '\\' :: '\\' :: rest => (unescapeChars rest).map (fun t => '\\' :: t)
  | '\\' :: 'u' :: a :: b :: c :: d :: rest =>
    match hex4 a b c d with
    | none => none
    | some v =>
      match charFromU32 v with
      | none => none
      | some ch => (unescapeChars rest).map (fun t => ch :: t)
  | '\\' :: _ => none
  | c :: rest => (unescapeChars rest).map (fun t => c :: t)

/-- Form `unescape(s).unwrap_or_else(|| s.to_string())`, the form used at every
call site in `sanitize_cgroup`. -/
def unescapeOrSelf (s : List Char) : List Char := (unescapeChars s).getD s

/-! ## Cgroup classification (`sanitize_cgroup`)

```rust
fn sanitize_cgroup<S: AsRef<str>>(cgroup: S) -> Option<String> {
    let cgroups_v2_line = cgroup.as_ref().split('\n').find(|s| s.starts_with("0::"))?;
    if cgroups_v2_line.ends_with(".scope") {
        let cgroups_segments: Vec<&str> = cgroups_v2_line.split('-').collect();
        if cgroups_segments.len() > 1 {
            cgroups_segments.get(cgroups_segments.len() - 2)
                .map(|s| unescape::unescape(s).unwrap_or_else(|| (*s).to_string()))
        } else { None }
    } else if cgroups_v2_line.ends_with(".service") {
        let cgroups_segments: Vec<&str> = cgroups_v2_line.split('/').collect();
        if let Some(last) = cgroups_segments.last() {
            last[0..last.len() - 8].split('@').next()
                .map(|s| unescape::unescape(s).unwrap_or_else(|| s.to_string()))
                .map(|s| if s.contains("dbus-:") {
                    s.split('-').last().unwrap_or(&s).to_string()
                } else { s })
        } else { None }
    } else { None }
}
```
`last[0..last.len() - 8]` strips the 8-byte ASCII suffix `.service`, i.e.
drops the final 8 characters. -/

def sanitize_cgroup (cgroup : List Char) : Option (List Char) :=
  match (splitChar '\n' cgroup).find? (fun l => lstarts l "0::".toList) with
  | none => none
  | some line =>
    if lends line ".scope".toList then
      let segs := splitChar '-' line
      if segs.length > 1 then
        (segs.get? (segs.length - 2)).map unescapeOrSelf
      else none
    else if lends line ".service".toList then
      match (splitChar '/' line).getLast? with
      | none => none
      | some last =>
        ((splitChar '@' (last.take (last.length - 8))).head?).map
          (fun s =>
            let s := unescapeOrSelf s
            if hasSub "dbus-:".toList s then
              ((splitChar '-' s).getLast?).getD s
            else s)
    else none

/-! ## Accelerator statistics types -/

structure GpuUsageStats where
  gfx : Nat
  mem : Nat
  enc : Nat
  dec : Nat
  nvidia : Bool
  deriving DecidableEq, Repr

structure NpuUsageStats where
  usage : Nat
  mem : Nat
  deriving DecidableEq, Repr

/-! ## Association-list maps

`BTreeMap<PciSlot, _>` and `HashMap<PciSlot, _>` are used only through
`get`/lookup, entry-or-insert and extend; iteration order never matters to
the embedded properties, so both are modelled as association lists with
unique keys maintained by `insertA`.  PCI slots are modelled as their
ordinal (`PciSlot` is an opaque ordered key). -/

def lookupA {α : Type} : List (Nat × α) → Nat → Option α
  | [], _ => none
  | (k', v) :: rest, k => if k' = k then some v else lookupA rest k

def insertA {α : Type} : List (Nat × α) → Nat → α → List (Nat × α)
  | [], k, v => [(k, v)]
  | (k', v') :: rest, k, v =>
    if k' = k then (k', v) :: rest else (k', v') :: insertA rest k v

/-! ## Fdinfo plausibility (`drm_fdinfo_plausible`)

```rust
fn drm_fdinfo_plausible<P: AsRef<Path>>(fdinfo_path: P, pid: libc::pid_t,
        seen_fds: &HashSet<usize>) -> (bool, usize) {
    let fd_num = fdinfo_path.file_name().and_then(|osstr| osstr.to_str())
        .unwrap_or("0").parse::<usize>().unwrap_or(0);
    if fd_num <= 2 { return (false, fd_num); }
    let _file = std::fs::File::open(&fdinfo_path);
    if _file.is_err() { return (true, fd_num); }
    let _metadata = _file.unwrap().metadata();
    if _metadata.is_err() { return (true, fd_num); }
    if !_metadata.unwrap().is_file() { return (false, fd_num); }
    let fd_path = fdinfo_path.to_str().map(|s| s.replace("fdinfo", "fd"));
    if let Some(fd_path) = fd_path {
        if let Ok(fd_metadata) = std::fs::metadata(fd_path) {
            let major = unsafe { libc::major(fd_metadata.st_rdev()) };
            if (fd_metadata.st_mode() & libc::S_IFMT) != libc::S_IFCHR || major != 226 {
                return (false, fd_num);
            }
        }
    }
    let not_unique = seen_fds.iter().any(|seen_fd| unsafe {
        syscalls::syscall!(syscalls::Sysno::kcmp, pid, pid, 0, fd_num, *seen_fd)
            .unwrap_or(0) == 0
    });
    if not_unique { return (false, fd_num); }
    (true, fd_num)
}
```
`kcmp` returns `Ok(0)` when the two descriptors refer to the same file
object; `Err` when the syscall fails (e.g. the kernel lacks `CONFIG_KCMP`).
The filesystem results are inputs, collected in `FdEnv`; the syscall is the
oracle `kcmp : Nat → Nat → Option Nat` (`none` = `Err`). -/

structure FdEnv where
  /-- The entry's file name (`"0"` when absent or not UTF-8). -/
  fdName : List Char
  /-- Whether `File::open` succeeded. -/
  openOk : Bool
  /-- Whether `file.metadata()` succeeded. -/
  metadataOk : Bool
  /-- Value of `metadata.is_file()`. -/
  isFile : Bool
  /-- Result of `fs::metadata` on the matching `fd` entry: `(st_mode` is a character
  device, `major(st_rdev))`; `none` when that `stat` failed (or the path was
  not UTF-8), which skips the device check. -/
  fdMeta : Option (Bool × Nat)

def drm_fdinfo_plausible (env : FdEnv) (kcmp : Nat → Nat → Option Nat)
    (seen : List Nat) : Bool × Nat :=
  let fd_num := (rustParseUInt 64 env.fdName).getD 0
  if fd_num ≤ 2 then (false, fd_num)
  else if !env.openOk then (true, fd_num)
  else if !env.metadataOk then (true, fd_num)
  else if !env.isFile then (false, fd_num)
  else
    let devReject :=
      match env.fdMeta with
      | some (isChr, major) => !isChr || major ≠ 226
      | none => false
    if devReject then (false, fd_num)
    else if seen.any (fun s => (kcmp fd_num s).getD 0 = 0) then (false, fd_num)
    else (true, fd_num)

/-! ## Fdinfo scanning and per-slot combination
(`other_gpu_usage_stats`, `npu_usage_stats`)

Both loops walk the `fdinfo` directory entries; for each plausible entry the
fd is recorded in `seen_fds` and the parsed content (when `read_gpu_fdinfo`
or `read_npu_fdinfo` returns `Ok`) is merged into a `BTreeMap` keyed by PCI
slot, taking the per-field maximum on an existing entry (`and_modify`) and
inserting otherwise (`or_insert`).  An entry's parse outcome is content
input, carried in `FdEntry`. -/

structure FdEntry where
  env : FdEnv
  /-- The `read_gpu_fdinfo` outcome for this entry's content (`none` = `Err`). -/
  gpuParse : Option (Nat × GpuUsageStats)
  /-- The `read_npu_fdinfo` outcome for this entry's content (`none` = `Err`). -/
  npuParse : Option (Nat × NpuUsageStats)

/-- Rust `HashSet::insert`. -/
def insertSeen (seen : List Nat) (fd : Nat) : List Nat :=
  if fd ∈ seen then seen else fd :: seen

/-- The `and_modify` closure of `other_gpu_usage_stats`: keep the larger
value per field, leave `nvidia` untouched. -/
def mergeGpu (existing incoming : GpuUsageStats) : GpuUsageStats :=
  { gfx := if incoming.gfx > existing.gfx then incoming.gfx else existing.gfx
    dec := if incoming.dec > existing.dec then incoming.dec else existing.dec
    enc := if incoming.enc > existing.enc then incoming.enc else existing.enc
    mem := if incoming.mem > existing.mem then incoming.mem else existing.mem
    nvidia := existing.nvidia }

/-- Generic `entry(k).and_modify(|e| *e = f(e, v)).or_insert(v)` on the map
model, with a configurable modify rule `f`. -/
def combineA {α : Type} (f : α → α → α) (m : List (Nat × α)) (k : Nat)
    (v : α) : List (Nat × α) :=
  match lookupA m k with
  | some e => insertA m k (f e v)
  | none => insertA m k v

/-- Step `return_map.entry(pci_slot).and_modify(max per field).or_insert(stats)`. -/
def gpuCombine (m : List (Nat × GpuUsageStats)) (slot : Nat)
    (stats : GpuUsageStats) : List (Nat × GpuUsageStats) :=
  combineA mergeGpu m slot stats

/-- The `and_modify` closure of `npu_usage_stats`. -/
def mergeNpu (existing incoming : NpuUsageStats) : NpuUsageStats :=
  { usage := if incoming.usage > existing.usage then incoming.usage
             else existing.usage
    mem := if incoming.mem > existing.mem then incoming.mem
           else existing.mem }

def npuCombine (m : List (Nat × NpuUsageStats)) (slot : Nat)
    (stats : NpuUsageStats) : List (Nat × NpuUsageStats) :=
  combineA mergeNpu m slot stats

def gpuScanStep (kcmp : Nat → Nat → Option Nat)
    (st : List Nat × List (Nat × GpuUsageStats)) (e : FdEntry) :
    List Nat × List (Nat × GpuUsageStats) :=
  let r := drm_fdinfo_plausible e.env kcmp st.1
  if !r.1 then st
  else
    let seen := insertSeen st.1 r.2
    match e.gpuParse with
    | some p => (seen, gpuCombine st.2 p.1 p.2)
    | none => (seen, st.2)

def other_gpu_usage_stats (kcmp : Nat → Nat → Option Nat)
    (entries : List FdEntry) : List (Nat × GpuUsageStats) :=
  (entries.foldl (gpuScanStep kcmp) ([], [])).2

def npuScanStep (kcmp : Nat → Nat → Option Nat)
    (st : List Nat × List (Nat × NpuUsageStats)) (e : FdEntry) :
    List Nat × List (Nat × NpuUsageStats) :=
  let r := drm_fdinfo_plausible e.env kcmp st.1
  if !r.1 then st
  else
    let seen := insertSeen st.1 r.2
    match e.npuParse with
    | some p => (seen, npuCombine st.2 p.1 p.2)
    | none => (seen, st.2)

def npu_usage_stats (kcmp : Nat → Nat → Option Nat)
    (entries : List FdEntry) : List (Nat × NpuUsageStats) :=
  (entries.foldl (npuScanStep kcmp) ([], [])).2

/-- The subsequence of fdinfo entries accepted by the scan loops (those that
pass `drm_fdinfo_plausible` against the evolving `seen_fds` set; both loops
insert each accepted descriptor into `seen_fds` before parsing).  The loops'
maps are exactly the per-slot combination folded over these entries' parse
results. -/
def acceptedEntries (kcmp : Nat → Nat → Option Nat) :
    List FdEntry → List Nat → List FdEntry
  | [], _ => []
  | e :: es, seen =>
    let r := drm_fdinfo_plausible e.env kcmp seen
    if !r.1 then acceptedEntries kcmp es seen
    else e :: acceptedEntries kcmp es (insertSeen seen r.2)

/-! ## NVIDIA cache and per-process stats

`NVML_DEVICES` is the enumerated device list (modelled by its slot keys);
per-device NVML query results are oracles.  `update_nvidia_stats` clears and
rebuilds both caches wholesale. -/

structure ProcessUtilizationSample where
  pid : Nat
  smUtil : Nat
  encUtil : Nat
  decUtil : Nat
  deriving DecidableEq, Repr

inductive UsedGpuMemory where
  | unavailable
  | used (bytes : Nat)
  deriving DecidableEq, Repr

structure ProcessInfo where
  pid : Nat
  usedGpuMemory : UsedGpuMemory
  deriving DecidableEq, Repr

/-- Embedded `nvidia_process_stats`: one cache entry per enumerated device; a failed
`process_utilization_stats` query defaults to the empty list. -/
def nvidia_process_stats (devices : List Nat)
    (utilQ : Nat → Option (List ProcessUtilizationSample)) :
    List (Nat × List ProcessUtilizationSample) :=
  devices.foldl (fun m s => insertA m s ((utilQ s).getD [])) []

/-- Embedded `nvidia_process_infos`: running graphics processes extended with running
compute processes, each query defaulting to empty on failure. -/
def nvidia_process_infos (devices : List Nat)
    (gfxQ compQ : Nat → Option (List ProcessInfo)) :
    List (Nat × List ProcessInfo) :=
  devices.foldl (fun m s => insertA m s (((gfxQ s).getD []) ++ ((compQ s).getD []))) []

/-- The match in `nvidia_gpu_stats` on a memory record:
`UsedGpuMemory::Unavailable => 0, UsedGpuMemory::Used(bytes) => bytes`. -/
def usedGpuMemoryBytes (i : ProcessInfo) : Nat :=
  match i.usedGpuMemory with
  | UsedGpuMemory.unavailable => 0
  | UsedGpuMemory.used bytes => bytes

/-- Rust `Iterator::reduce` with component-wise wrapping `u32` addition, as
in `nvidia_gpu_stats`. -/
def reduceUtil : List (Nat × Nat × Nat) → Option (Nat × Nat × Nat)
  | [] => none
  | x :: xs =>
    some (xs.foldl
      (fun a c => (addU32 a.1 c.1, addU32 a.2.1 c.2.1, addU32 a.2.2 c.2.2)) x)

/-- Embedded `nvidia_gpu_stats(pid, pci_slot)`: filter both cached lists to this pid;
sum utilization samples (wrapping `u32`), sum used memory treating
`Unavailable` as 0 (wrapping `u64`); a missing cache key is an error. -/
def nvidia_gpu_stats (statsCache : List (Nat × List ProcessUtilizationSample))
    (infosCache : List (Nat × List ProcessInfo)) (pid slot : Nat) :
    Except Unit GpuUsageStats :=
  match lookupA statsCache slot with
  | none => Except.error ()
  | some samples =>
    match lookupA infosCache slot with
    | none => Except.error ()
    | some infos =>
      let t := reduceUtil
        ((samples.filter (fun s => s.pid = pid)).map
          (fun s => (s.smUtil, s.encUtil, s.decUtil)))
      let mem := ((infos.filter (fun i => i.pid = pid)).map
        usedGpuMemoryBytes).foldl addU64 0
      Except.ok
        { gfx := (t.getD (0, 0, 0)).1
          mem := mem
          enc := (t.getD (0, 0, 0)).2.1
          dec := (t.getD (0, 0, 0)).2.2
          nvidia := true }

/-- Embedded `nvidia_gpu_stats_all(pid)`: one entry per enumerated device whose stats
computation succeeds. -/
def nvidia_gpu_stats_all (statsCache : List (Nat × List ProcessUtilizationSample))
    (infosCache : List (Nat × List ProcessInfo)) (devices : List Nat)
    (pid : Nat) : List (Nat × GpuUsageStats) :=
  devices.foldl
    (fun m s =>
      match nvidia_gpu_stats statsCache infosCache pid s with
      | Except.ok stats => insertA m s stats
      | Except.error _ => m) []

/-- Embedded `gpu_usage_stats`: fdinfo-derived stats extended with NVIDIA stats
(`BTreeMap::extend` — NVIDIA entries overwrite on key collision). -/
def gpu_usage_stats_merge (other nvidiaStats : List (Nat × GpuUsageStats)) :
    List (Nat × GpuUsageStats) :=
  nvidiaStats.foldl (fun m p => insertA m p.1 p.2) other

/-- An fdinfo entry environment that opens and stats cleanly as a regular
file on the DRM character-device major, with the given descriptor name. -/
def cleanFdEnv (name : List Char) : FdEnv :=
  { fdName := name
    openOk := true
    metadataOk := true
    isFile := true
    fdMeta := some (true, 226) }

/-- An fdinfo entry that opens and stats cleanly as a regular file on the
DRM character-device major, with descriptor number 4. -/
def kcmpEnvGood : FdEnv := cleanFdEnv "4".toList

/-- A clean fdinfo entry for descriptor 4 whose content parses as GPU slot 7
with engine times 100/5/3 and memory 10, and as NPU slot 9 with usage 100
and memory 10. -/
def entryA : FdEntry :=
  { env := cleanFdEnv "4".toList
    gpuParse := some (7, { gfx := 100, mem := 10, enc := 5, dec := 3, nvidia := false })
    npuParse := some (9, { usage := 100, mem := 10 }) }

/-- A clean fdinfo entry for descriptor 5 whose content parses as GPU slot 7
with engine times 150/9/1 and memory 8, and as NPU slot 9 with usage 60 and
memory 25. -/
def entryB : FdEntry :=
  { env := cleanFdEnv "5".toList
    gpuParse := some (7, { gfx := 150, mem := 8, enc := 9, dec := 1, nvidia := false })
    npuParse := some (9, { usage := 60, mem := 25 }) }

/-! # Theorems -/

/-- C6: for every `i8` input `n`, `Niceness` construction succeeds exactly
when `-20 ≤ n ≤ 19`, fails outside that range, and on success the stored
value dereferences back to `n`. -/
theorem niceness_range (n : Int) (h1 : -128 ≤ n) (h2 : n ≤ 127) :
    (-20 ≤ n ∧ n ≤ 19 → nicenessTryFrom n = some n) ∧
    (n < -20 ∨ 19 < n → nicenessTryFrom n = none) ∧
    (∀ m, nicenessTryFrom n = some m → m = n) := by
  unfold nicenessTryFrom
  refine ⟨?_, ?_, ?_⟩
  · rintro ⟨ha, hb⟩
    rw [if_pos hb, if_pos ha]
  · intro h
    split_ifs with ha hb
    · exfalso
      omega
    · rfl
    · rfl
  · intro m hm
    split_ifs at hm with ha hb
    exact (Option.some.inj hm).symm

theorem niceness_range_witness :
    nicenessTryFrom 5 = some 5 ∧ nicenessTryFrom 20 = none :=
  ⟨(niceness_range 5 (by decide) (by decide)).1 (by decide),
   (niceness_range 20 (by decide) (by decide)).2.1 (Or.inr (by decide))⟩

/-- C9: containerization is classified in strict priority order — a command
line starting with `/snap/` yields `snap` even when a `.flatpak-info` file
exists; otherwise an existing `.flatpak-info` yields `flatpak`; otherwise
`none`. -/
theorem containerization_priority (cl : List Char) (fp : Bool) :
    containerization "/snap/foo/bar".toList true = Containerization.snap ∧
    (lstarts cl "/snap/".toList = true →
      containerization cl fp = Containerization.snap) ∧
    (lstarts cl "/snap/".toList = false → fp = true →
      containerization cl fp = Containerization.flatpak) ∧
    (lstarts cl "/snap/".toList = false → fp = false →
      containerization cl fp = Containerization.none) := by
  refine ⟨by decide, ?_, ?_, ?_⟩
  · intro h
    unfold containerization
    rw [h]
    simp
  · intro h hf
    unfold containerization
    rw [h, hf]
    simp
  · intro h hf
    unfold containerization
    rw [h, hf]
    simp

theorem containerization_priority_witness :
    containerization "/bin/sh".toList false = Containerization.none :=
  (containerization_priority "/bin/sh".toList false).2.2.2 (by decide) rfl

/-- C7: for every parsable `statm` content, `memory_usage` is the
resident-page count minus the shared-page count (second and third
space-delimited fields), saturated at zero, times the page size; when
resident < shared the result is exactly 0. -/
theorem statm_memory (statm : List Char) (ps r s : Nat) (f1 f2 : List Char)
    (h1 : (splitChar ' ' statm).get? 1 = some f1)
    (h2 : rustParseUInt 64 f1 = some r)
    (h3 : (splitChar ' ' statm).get? 2 = some f2)
    (h4 : rustParseUInt 64 f2 = some s)
    (h5 : (r - s) * ps ≤ usizeMax) :
    statmMemoryUsage statm ps = some ((r - s) * ps) ∧
    (r < s → statmMemoryUsage statm ps = some 0) := by
  have hm : statmMemoryUsage statm ps = some (memFromPages r s ps) := by
    simp only [statmMemoryUsage, h1, h2, h3, h4]
  have hv : memFromPages r s ps = (r - s) * ps := by
    unfold memFromPages satMul64 satSub
    exact Nat.min_eq_left h5
  refine ⟨by rw [hm, hv], ?_⟩
  intro hlt
  rw [hm, hv, Nat.sub_eq_zero_of_le (Nat.le_of_lt hlt), Nat.zero_mul]

theorem statm_memory_witness :
    statmMemoryUsage "12 100 40 1 0 350 0\n".toList 4096 = some 245760 := by
  have h := statm_memory "12 100 40 1 0 350 0\n".toList 4096 100 40
    "100".toList "40".toList (by decide) (by decide) (by decide) (by decide)
    (by decide)
  simpa using h.1

/-- C3 counterexample: a present but unparsable `Uid:` value (a digit run
overflowing `u32`) makes `get_uid` return an error, which propagates through
the user-resolution step of `try_from_path` (the claim says it should
default to 0 and never propagate). -/
theorem uid_unparsable_errors_cex :
    get_uid "Uid:\t4294967296\t4294967296\n".toList = Except.error () ∧
    resolveUser [(0, "root".toList)] "Uid:\t4294967296\t4294967296\n".toList =
      Except.error () := ⟨rfl, rfl⟩

/-- C3 (amended): UID extraction returns 0 when the `Uid:` line is absent;
when the captured value parses it is returned; when it is present but
unparsable (u32 overflow) the error propagates and user resolution fails;
a UID unmapped in the user-database snapshot resolves to `"root"`. -/
theorem uid_default_and_fallback :
    (∀ status : List Char, uidCapture status = none →
      get_uid status = Except.ok 0) ∧
    (∀ (status digs : List Char) (v : Nat), uidCapture status = some digs →
      rustParseUInt 32 digs = some v → get_uid status = Except.ok v) ∧
    (∀ (cache : List (Nat × List Char)) (status digs : List Char),
      uidCapture status = some digs → rustParseUInt 32 digs = none →
      resolveUser cache status = Except.error ()) ∧
    (∀ (cache : List (Nat × List Char)) (status : List Char) (uid : Nat),
      get_uid status = Except.ok uid → lookupUser cache uid = none →
      resolveUser cache status = Except.ok "root".toList) := by
  refine ⟨?_, ?_, ?_, ?_⟩
  · intro status h
    simp only [get_uid, h]
  · intro status digs v h hp
    simp only [get_uid, h, hp]
  · intro cache status digs h hp
    simp only [resolveUser, get_uid, h, hp]
  · intro cache status uid h hl
    simp only [resolveUser, h, hl]

theorem uid_default_and_fallback_witness :
    get_uid "Name: x\n".toList = Except.ok 0 ∧
    resolveUser [] "Uid:\t1000\n".toList = Except.ok "root".toList :=
  ⟨uid_default_and_fallback.1 "Name: x\n".toList (by decide),
   uid_default_and_fallback.2.2.2 [] "Uid:\t1000\n".toList 1000 rfl rfl⟩

/-- C1: at the failing input — the comparison of candidate fd 4 against
already-accepted fd 3 when the `kcmp` syscall returns an error — the code
rejects the candidate (`plausible = false`), exactly as it does for a proven
equivalence (`kcmp = 0`), instead of treating the error as "not equivalent"
as the claim and the function's own doc comment state; a distinctness result
(`kcmp = 1`) keeps the candidate. -/
theorem kcmp_error_treated_as_equivalent :
    ( drm_fdinfo_plausible kcmpEnvGood (fun _ _ => none) [3]).1 = false ∧
    ( drm_fdinfo_plausible kcmpEnvGood (fun _ _ => some 1) [3]).1 = true ∧
    ( drm_fdinfo_plausible kcmpEnvGood (fun _ _ => some 0) [3]).1 = false := by
  decide

/-- C8: cgroup classification considers only the unified-hierarchy (`0::`)
line: a `.scope` line splits on `-` and, when more than one segment remains,
yields the unescaped second-to-last segment
(`0::/user.slice/app-myapp-1234.scope` classifies as `myapp`); a `.service`
line strips the suffix, takes the portion before the first `@`, unescapes
it, and replaces a result containing `dbus-:` with its last `-`-delimited
segment (`0::/system.slice/foo@1.service` classifies as `foo`); any other
shape yields no classification. -/
theorem sanitize_cgroup_shapes :
    sanitize_cgroup "0::/user.slice/app-myapp-1234.scope".toList =
      some "myapp".toList ∧
    sanitize_cgroup "0::/system.slice/foo@1.service".toList =
      some "foo".toList ∧
    (∀ cg : List Char,
      (splitChar '\n' cg).find? (fun l => lstarts l "0::".toList) = none →
      sanitize_cgroup cg = none) ∧
    (∀ cg line : List Char,
      (splitChar '\n' cg).find? (fun l => lstarts l "0::".toList) = some line →
      lends line ".scope".toList = false → lends line ".service".toList = false →
      sanitize_cgroup cg = none) ∧
    (∀ cg line : List Char,
      (splitChar '\n' cg).find? (fun l => lstarts l "0::".toList) = some line →
      lends line ".scope".toList = true →
      sanitize_cgroup cg =
        (if (splitChar '-' line).length > 1 then
          ((splitChar '-' line).get? ((splitChar '-' line).length - 2)).map
            unescapeOrSelf
        else none)) ∧
    (∀ cg line last : List Char,
      (splitChar '\n' cg).find? (fun l => lstarts l "0::".toList) = some line →
      lends line ".scope".toList = false → lends line ".service".toList = true →
      (splitChar '/' line).getLast? = some last →
      sanitize_cgroup cg =
        ((splitChar '@' (last.take (last.length - 8))).head?).map
          (fun s =>
            let s := unescapeOrSelf s
            if hasSub "dbus-:".toList s then ((splitChar '-' s).getLast?).getD s
            else s)) := by
  refine ⟨by decide, by decide, ?_, ?_, ?_, ?_⟩
  · intro cg h
    simp only [sanitize_cgroup, h]
  · intro cg line h hsc hsv
    simp only [sanitize_cgroup, h, hsc, hsv, Bool.false_eq_true, if_false]
  · intro cg line h hsc
    simp only [sanitize_cgroup, h, hsc, if_true]
  · intro cg line last h hsc hsv hl
    simp only [sanitize_cgroup, h, hsc, hsv, hl, Bool.false_eq_true, if_false,
      if_true]

theorem sanitize_cgroup_shapes_witness :
    sanitize_cgroup "1:name=systemd:/init.scope\n".toList = none :=
  sanitize_cgroup_shapes.2.2.1 "1:name=systemd:/init.scope\n".toList (by decide)

/-! ### Affinity-vector length -/

theorem capFold_length (n : Nat) (f : Nat → Bool) :
    ∀ (k : Nat) (acc : List Bool), acc.length ≤ n →
    ((List.range k).foldl
      (fun a i => if a.length < n then a ++ [f i] else a) acc).length =
      min (acc.length + k) n := by
  intro k
  induction k with
  | zero =>
    intro acc h
    simpa using by omega
  | succ k ih =>
    intro acc h
    rw [List.range_succ, List.foldl_append]
    have hk := ih acc h
    simp only [List.foldl_cons, List.foldl_nil]
    rw [apply_ite List.length, List.length_append]
    rw [hk]
    simp only [List.length_singleton]
    split_ifs with hlt
    · omega
    · omega

theorem pushNibble_length (n : Nat) (acc : List Bool) (int : Nat)
    (h : acc.length ≤ n) :
    (pushNibble n acc int).length = min (acc.length + 4) n :=
  capFold_length n int.testBit 4 acc h

theorem foldNibbles_length (n : Nat) :
    ∀ (digs : List Nat) (acc : List Bool), acc.length ≤ n →
    (digs.foldl (pushNibble n) acc).length =
      min (acc.length + 4 * digs.length) n := by
  intro digs
  induction digs with
  | nil =>
    intro acc h
    simpa using by omega
  | cons d ds ih =>
    intro acc h
    rw [List.foldl_cons]
    have h1 := pushNibble_length n acc d h
    have h2 := ih (pushNibble n acc d) (by omega)
    rw [h2, h1]
    simp only [List.length_cons]
    omega

/-- C2 counterexample: a `Cpus_allowed` mask with fewer hex digits than
needed (`"f"` with 8 configured CPUs) decodes to a vector of length 4, not
8; an absent `Cpus_allowed` line decodes to the empty vector, not an
all-false vector of the CPU count. -/
theorem affinity_length_cex :
    (affinityFromStatus "Cpus_allowed:\tf\n".toList 8).length = 4 ∧
    ¬(affinityFromStatus "Cpus_allowed:\tf\n".toList 8).length = 8 ∧
    affinityFromStatus "Name: x\n".toList 4 = [] := by decide

/-- C2 (amended): the decoded CPU-affinity vector has length
`min (4 × number of captured hex digits) numCpus` — equal to the CPU count
exactly when the mask covers it, shorter for a too-short mask, and empty
when the `Cpus_allowed` line is absent; hex digits are decoded from the
least-significant nibble (string processed in reverse), each nibble expanded
into its 4 bits low-to-high, stopping once the CPU count is reached. -/
theorem affinity_length_and_decode :
    (∀ (status : List Char) (numCpus : Nat),
      (affinityFromStatus status numCpus).length =
        min (4 * ((affinityCapture status).getD []).length) numCpus) ∧
    (∀ (mask : List Char) (numCpus : Nat),
      (affinityFromMask mask numCpus).length =
        min (4 * mask.length) numCpus) ∧
    affinityFromStatus "Cpus_allowed:\tf\n".toList 4 =
      [true, true, true, true] ∧
    affinityFromStatus "Cpus_allowed:\t1\n".toList 4 =
      [true, false, false, false] ∧
    affinityFromMask "12".toList 8 =
      [false, true, false, false, true, false, false, false] ∧
    (∀ (status : List Char) (numCpus : Nat), affinityCapture status = none →
      affinityFromStatus status numCpus = []) := by
  have hmask : ∀ (mask : List Char) (numCpus : Nat),
      (affinityFromMask mask numCpus).length =
        min (4 * mask.length) numCpus := by
    intro mask numCpus
    unfold affinityFromMask
    rw [foldNibbles_length numCpus _ [] (by simp)]
    simp [Nat.mul_comm]
  refine ⟨?_, hmask, by decide, by decide, by decide, ?_⟩
  · intro status numCpus
    exact hmask _ _
  · intro status numCpus h
    unfold affinityFromStatus
    rw [h]
    rfl

theorem affinity_length_and_decode_witness :
    affinityFromStatus "Name: x\n".toList 4 = [] :=
  affinity_length_and_decode.2.2.2.2.2 "Name: x\n".toList 4 (by decide)

/-! ### Wrapping folds are plain sums when within bounds -/

theorem foldl_addU32_sum (l : List Nat) :
    ∀ a, a < 2 ^ 32 → l.foldl addU32 a = (a + l.sum) % 2 ^ 32 := by
  induction l with
  | nil =>
    intro a ha
    simp only [List.foldl_nil, List.sum_nil, Nat.add_zero]
    omega
  | cons x xs ih =>
    intro a ha
    rw [List.foldl_cons, ih (addU32 a x) (Nat.mod_lt _ (by norm_num))]
    unfold addU32
    rw [Nat.mod_add_mod]
    simp [Nat.add_assoc]

theorem foldl_addU64_sum (l : List Nat) :
    ∀ a, a < 2 ^ 64 → l.foldl addU64 a = (a + l.sum) % 2 ^ 64 := by
  induction l with
  | nil =>
    intro a ha
    simp only [List.foldl_nil, List.sum_nil, Nat.add_zero]
    omega
  | cons x xs ih =>
    intro a ha
    rw [List.foldl_cons, ih (addU64 a x) (Nat.mod_lt _ (by norm_num))]
    unfold addU64
    rw [Nat.mod_add_mod]
    simp [Nat.add_assoc]

theorem reduceUtil_cons (x : Nat × Nat × Nat) (xs : List (Nat × Nat × Nat)) :
    reduceUtil (x :: xs) = some
      ((xs.map (fun p => p.1)).foldl addU32 x.1,
       (xs.map (fun p => p.2.1)).foldl addU32 x.2.1,
       (xs.map (fun p => p.2.2)).foldl addU32 x.2.2) := by
  simp only [reduceUtil, Option.some.injEq]
  induction xs generalizing x with
  | nil => simp
  | cons c cs ih =>
    simp only [List.foldl_cons, List.map_cons]
    exact ih (addU32 x.1 c.1, addU32 x.2.1 c.2.1, addU32 x.2.2 c.2.2)

/-- C5: for an NVIDIA slot present in both caches, the per-process stats sum
the sm/enc/dec utilization of the pid-filtered samples into gfx/enc/dec, sum
the pid-filtered memory records' used bytes (`Unavailable` counting as 0)
into mem, and set the nvidia flag. -/
theorem nvidia_stats_sum
    (statsCache : List (Nat × List ProcessUtilizationSample))
    (infosCache : List (Nat × List ProcessInfo)) (pid slot : Nat)
    (samples : List ProcessUtilizationSample) (infos : List ProcessInfo)
    (hs : lookupA statsCache slot = some samples)
    (hi : lookupA infosCache slot = some infos)
    (hsm : ((samples.filter (fun s => s.pid = pid)).map
      (fun s => s.smUtil)).sum < 2 ^ 32)
    (henc : ((samples.filter (fun s => s.pid = pid)).map
      (fun s => s.encUtil)).sum < 2 ^ 32)
    (hdec : ((samples.filter (fun s => s.pid = pid)).map
      (fun s => s.decUtil)).sum < 2 ^ 32)
    (hmem : ((infos.filter (fun i => i.pid = pid)).map
      usedGpuMemoryBytes).sum < 2 ^ 64) :
    nvidia_gpu_stats statsCache infosCache pid slot = Except.ok
      { gfx := ((samples.filter (fun s => s.pid = pid)).map
          (fun s => s.smUtil)).sum
        mem := ((infos.filter (fun i => i.pid = pid)).map
          usedGpuMemoryBytes).sum
        enc := ((samples.filter (fun s => s.pid = pid)).map
          (fun s => s.encUtil)).sum
        dec := ((samples.filter (fun s => s.pid = pid)).map
          (fun s => s.decUtil)).sum
        nvidia := true } := by
  have hmemv : ((infos.filter (fun i => i.pid = pid)).map
      usedGpuMemoryBytes).foldl addU64 0 =
      ((infos.filter (fun i => i.pid = pid)).map usedGpuMemoryBytes).sum := by
    rw [foldl_addU64_sum _ 0 (by norm_num), Nat.zero_add]
    exact Nat.mod_eq_of_lt hmem
  simp only [nvidia_gpu_stats, hs, hi]
  cases hfs : samples.filter (fun s => s.pid = pid) with
  | nil =>
    rw [hfs] at hsm henc hdec
    simp only [List.map_nil, reduceUtil, Option.getD_none, List.sum_nil]
    rw [hmemv]
  | cons s ss =>
    rw [hfs] at hsm henc hdec
    rw [List.map_cons, reduceUtil_cons]
    simp only [Option.getD_some, List.map_map, List.map_cons, List.sum_cons]
      at hsm henc hdec ⊢
    rw [show ((fun p : Nat × Nat × Nat => p.1) ∘
        fun s : ProcessUtilizationSample =>
          (s.smUtil, s.encUtil, s.decUtil)) = fun s => s.smUtil from rfl]
    rw [show ((fun p : Nat × Nat × Nat => p.2.1) ∘
        fun s : ProcessUtilizationSample =>
          (s.smUtil, s.encUtil, s.decUtil)) = fun s => s.encUtil from rfl]
    rw [show ((fun p : Nat × Nat × Nat => p.2.2) ∘
        fun s : ProcessUtilizationSample =>
          (s.smUtil, s.encUtil, s.decUtil)) = fun s => s.decUtil from rfl]
    rw [foldl_addU32_sum _ _ (by omega), foldl_addU32_sum _ _ (by omega),
      foldl_addU32_sum _ _ (by omega), hmemv]
    rw [Nat.mod_eq_of_lt hsm, Nat.mod_eq_of_lt henc, Nat.mod_eq_of_lt hdec]

theorem nvidia_stats_sum_witness :
    nvidia_gpu_stats
      [(0, [⟨1, 10, 1, 2⟩, ⟨1, 15, 3, 4⟩, ⟨2, 90, 9, 9⟩])]
      [(0, [⟨1, UsedGpuMemory.used 100⟩, ⟨1, UsedGpuMemory.unavailable⟩,
            ⟨2, UsedGpuMemory.used 7⟩])] 1 0 =
      Except.ok { gfx := 25, mem := 100, enc := 4, dec := 6, nvidia := true } := by
  have h := nvidia_stats_sum
    [(0, [⟨1, 10, 1, 2⟩, ⟨1, 15, 3, 4⟩, ⟨2, 90, 9, 9⟩])]
    [(0, [⟨1, UsedGpuMemory.used 100⟩, ⟨1, UsedGpuMemory.unavailable⟩,
          ⟨2, UsedGpuMemory.used 7⟩])] 1 0
    [⟨1, 10, 1, 2⟩, ⟨1, 15, 3, 4⟩, ⟨2, 90, 9, 9⟩]
    [⟨1, UsedGpuMemory.used 100⟩, ⟨1, UsedGpuMemory.unavailable⟩,
     ⟨2, UsedGpuMemory.used 7⟩]
    rfl rfl (by decide) (by decide) (by decide) (by decide)
  simpa using h

/-! ### Association-list and combination lemmas -/

theorem lookupA_insertA_self {α : Type} (m : List (Nat × α)) (k : Nat)
    (v : α) : lookupA (insertA m k v) k = some v := by
  induction m with
  | nil => simp [insertA, lookupA]
  | cons p rest ih =>
    obtain ⟨k', v'⟩ := p
    by_cases h : k' = k
    · simp [insertA, lookupA, h]
    · simp [insertA, lookupA, h, ih]

theorem lookupA_insertA_ne {α : Type} (m : List (Nat × α)) (k k' : Nat)
    (v : α) (h : k' ≠ k) : lookupA (insertA m k v) k' = lookupA m k' := by
  have hne : ¬k = k' := fun hh => h hh.symm
  induction m with
  | nil => simp [insertA, lookupA, hne]
  | cons p rest ih =>
    obtain ⟨k'', v''⟩ := p
    by_cases h2 : k'' = k
    · subst h2
      simp [insertA, lookupA, hne]
    · simp [insertA, lookupA, h2, ih]

theorem lookupA_combineA_self {α : Type} (f : α → α → α)
    (m : List (Nat × α)) (k : Nat) (v : α) :
    lookupA (combineA f m k v) k =
      some (match lookupA m k with
            | some e => f e v
            | none => v) := by
  cases h : lookupA m k <;> simp [combineA, h, lookupA_insertA_self]

theorem lookupA_combineA_ne {α : Type} (f : α → α → α) (m : List (Nat × α))
    (k k' : Nat) (v : α) (h : k' ≠ k) :
    lookupA (combineA f m k v) k' = lookupA m k' := by
  cases hh : lookupA m k <;>
    simp [combineA, hh, lookupA_insertA_ne _ _ _ _ h]

theorem lookup_foldl_combineA_some {α : Type} (f : α → α → α) :
    ∀ (ps : List (Nat × α)) (m : List (Nat × α)) (slot : Nat) (e : α),
    lookupA m slot = some e →
    lookupA (ps.foldl (fun m p => combineA f m p.1 p.2) m) slot =
      some (((ps.filter (fun p => p.1 == slot)).map Prod.snd).foldl f e) := by
  intro ps
  induction ps with
  | nil =>
    intro m slot e h
    simpa using h
  | cons p ps ih =>
    intro m slot e h
    rw [List.foldl_cons]
    by_cases hp : p.1 = slot
    · subst hp
      have hself := lookupA_combineA_self f m p.1 p.2
      rw [h] at hself
      rw [ih _ _ _ hself]
      simp
    · have hne := lookupA_combineA_ne f m p.1 slot p.2 (Ne.symm hp)
      rw [ih _ _ _ (hne.trans h)]
      simp [List.filter_cons, hp]

theorem lookup_foldl_combineA_none {α : Type} (f : α → α → α) :
    ∀ (ps : List (Nat × α)) (m : List (Nat × α)) (slot : Nat),
    lookupA m slot = none →
    lookupA (ps.foldl (fun m p => combineA f m p.1 p.2) m) slot =
      (match (ps.filter (fun p => p.1 == slot)).map Prod.snd with
       | [] => none
       | h :: t => some (t.foldl f h)) := by
  intro ps
  induction ps with
  | nil =>
    intro m slot h
    simpa using h
  | cons p ps ih =>
    intro m slot h
    rw [List.foldl_cons]
    by_cases hp : p.1 = slot
    · subst hp
      have hself := lookupA_combineA_self f m p.1 p.2
      rw [h] at hself
      rw [lookup_foldl_combineA_some f ps _ _ _ hself]
      simp
    · have hne := lookupA_combineA_ne f m p.1 slot p.2 (Ne.symm hp)
      rw [ih _ _ (hne.trans h)]
      simp [List.filter_cons, hp]

theorem ite_gt_max (a b : Nat) : (if b > a then b else a) = max a b := by
  rw [Nat.max_def]
  split_ifs <;> omega

theorem foldl_mergeGpu_fields :
    ∀ (l : List GpuUsageStats) (e : GpuUsageStats),
    l.foldl mergeGpu e =
      { gfx := l.foldl (fun a x => max a x.gfx) e.gfx
        mem := l.foldl (fun a x => max a x.mem) e.mem
        enc := l.foldl (fun a x => max a x.enc) e.enc
        dec := l.foldl (fun a x => max a x.dec) e.dec
        nvidia := e.nvidia } := by
  intro l
  induction l with
  | nil =>
    intro e
    rfl
  | cons x xs ih =>
    intro e
    simp only [List.foldl_cons]
    rw [ih]
    simp [mergeGpu, ite_gt_max]

theorem foldl_mergeNpu_fields :
    ∀ (l : List NpuUsageStats) (e : NpuUsageStats),
    l.foldl mergeNpu e =
      { usage := l.foldl (fun a x => max a x.usage) e.usage
        mem := l.foldl (fun a x => max a x.mem) e.mem } := by
  intro l
  induction l with
  | nil =>
    intro e
    rfl
  | cons x xs ih =>
    intro e
    simp only [List.foldl_cons]
    rw [ih]
    simp [mergeNpu, ite_gt_max]

theorem gpuScan_eq_foldl (kcmp : Nat → Nat → Option Nat) :
    ∀ (entries : List FdEntry) (seen : List Nat)
      (m : List (Nat × GpuUsageStats)),
    (entries.foldl (gpuScanStep kcmp) (seen, m)).2 =
      ((acceptedEntries kcmp entries seen).filterMap
        (fun e => e.gpuParse)).foldl
          (fun m p => combineA mergeGpu m p.1 p.2) m := by
  intro entries
  induction entries with
  | nil =>
    intro seen m
    rfl
  | cons e es ih =>
    intro seen m
    rw [List.foldl_cons]
    by_cases hpl : ( drm_fdinfo_plausible e.env kcmp seen).1 = true
    · cases hg : e.gpuParse with
      | some p =>
        have hstep : gpuScanStep kcmp (seen, m) e =
            (insertSeen seen ( drm_fdinfo_plausible e.env kcmp seen).2,
             gpuCombine m p.1 p.2) := by
          simp [gpuScanStep, hpl, hg]
        rw [hstep, ih]
        simp [acceptedEntries, hpl, hg, gpuCombine]
      | none =>
        have hstep : gpuScanStep kcmp (seen, m) e =
            (insertSeen seen ( drm_fdinfo_plausible e.env kcmp seen).2, m) := by
          simp [gpuScanStep, hpl, hg]
        rw [hstep, ih]
        simp [acceptedEntries, hpl, hg]
    · have hstep : gpuScanStep kcmp (seen, m) e = (seen, m) := by
        simp [gpuScanStep, hpl]
      rw [hstep, ih]
      simp [acceptedEntries, hpl]

theorem npuScan_eq_foldl (kcmp : Nat → Nat → Option Nat) :
    ∀ (entries : List FdEntry) (seen : List Nat)
      (m : List (Nat × NpuUsageStats)),
    (entries.foldl (npuScanStep kcmp) (seen, m)).2 =
      ((acceptedEntries kcmp entries seen).filterMap
        (fun e => e.npuParse)).foldl
          (fun m p => combineA mergeNpu m p.1 p.2) m := by
  intro entries
  induction entries with
  | nil =>
    intro seen m
    rfl
  | cons e es ih =>
    intro seen m
    rw [List.foldl_cons]
    by_cases hpl : ( drm_fdinfo_plausible e.env kcmp seen).1 = true
    · cases hg : e.npuParse with
      | some p =>
        have hstep : npuScanStep kcmp (seen, m) e =
            (insertSeen seen ( drm_fdinfo_plausible e.env kcmp seen).2,
             npuCombine m p.1 p.2) := by
          simp [npuScanStep, hpl, hg]
        rw [hstep, ih]
        simp [acceptedEntries, hpl, hg, npuCombine]
      | none =>
        have hstep : npuScanStep kcmp (seen, m) e =
            (insertSeen seen ( drm_fdinfo_plausible e.env kcmp seen).2, m) := by
          simp [npuScanStep, hpl, hg]
        rw [hstep, ih]
        simp [acceptedEntries, hpl, hg]
    · have hstep : npuScanStep kcmp (seen, m) e = (seen, m) := by
        simp [npuScanStep, hpl]
      rw [hstep, ih]
      simp [acceptedEntries, hpl]

/-- C4: across the fdinfo entries accepted by one scan, entries mapping to
the same PCI slot are combined per field by MAXIMUM, not sum — for both the
GPU map (gfx/mem/enc/dec, nvidia flag taken from the first entry) and the
NPU map (usage/mem); concretely, two accepted fds on one slot reporting
graphics times 100 and 150 merge to gfx = 150. -/
theorem fdinfo_combination_max :
    (∀ (kcmp : Nat → Nat → Option Nat) (entries : List FdEntry) (slot : Nat)
      (h : GpuUsageStats) (t : List GpuUsageStats),
      (((acceptedEntries kcmp entries []).filterMap
        (fun e => e.gpuParse)).filter (fun p => p.1 == slot)).map Prod.snd =
          h :: t →
      lookupA (other_gpu_usage_stats kcmp entries) slot = some
        { gfx := t.foldl (fun a x => max a x.gfx) h.gfx
          mem := t.foldl (fun a x => max a x.mem) h.mem
          enc := t.foldl (fun a x => max a x.enc) h.enc
          dec := t.foldl (fun a x => max a x.dec) h.dec
          nvidia := h.nvidia }) ∧
    (∀ (kcmp : Nat → Nat → Option Nat) (entries : List FdEntry) (slot : Nat)
      (h : NpuUsageStats) (t : List NpuUsageStats),
      (((acceptedEntries kcmp entries []).filterMap
        (fun e => e.npuParse)).filter (fun p => p.1 == slot)).map Prod.snd =
          h :: t →
      lookupA (npu_usage_stats kcmp entries) slot = some
        { usage := t.foldl (fun a x => max a x.usage) h.usage
          mem := t.foldl (fun a x => max a x.mem) h.mem }) ∧
    lookupA (other_gpu_usage_stats (fun _ _ => some 1) [entryA, entryB]) 7 =
      some { gfx := 150, mem := 10, enc := 9, dec := 3, nvidia := false } ∧
    lookupA (npu_usage_stats (fun _ _ => some 1) [entryA, entryB]) 9 =
      some { usage := 100, mem := 25 } := by
  refine ⟨?_, ?_, by decide, by decide⟩
  · intro kcmp entries slot h t hf
    unfold other_gpu_usage_stats
    rw [gpuScan_eq_foldl,
      lookup_foldl_combineA_none mergeGpu _ _ slot
        (show lookupA ([] : List (Nat × GpuUsageStats)) slot = none from rfl),
      hf]
    show some (t.foldl mergeGpu h) = _
    rw [foldl_mergeGpu_fields]
  · intro kcmp entries slot h t hf
    unfold npu_usage_stats
    rw [npuScan_eq_foldl,
      lookup_foldl_combineA_none mergeNpu _ _ slot
        (show lookupA ([] : List (Nat × NpuUsageStats)) slot = none from rfl),
      hf]
    show some (t.foldl mergeNpu h) = _
    rw [foldl_mergeNpu_fields]

theorem fdinfo_combination_max_witness :
    lookupA (other_gpu_usage_stats (fun _ _ => some 1) [entryA, entryB]) 7 =
      some { gfx := 150, mem := 10, enc := 9, dec := 3, nvidia := false } := by
  have h := fdinfo_combination_max.1 (fun _ _ => some 1) [entryA, entryB] 7
    { gfx := 100, mem := 10, enc := 5, dec := 3, nvidia := false }
    [{ gfx := 150, mem := 8, enc := 9, dec := 1, nvidia := false }] (by decide)
  simpa using h

/-! ### Keys, refresh caches and the NVIDIA per-slot map -/

theorem lookupA_eq_none_of_not_mem {α : Type} :
    ∀ (m : List (Nat × α)) (k : Nat), k ∉ m.map Prod.fst →
    lookupA m k = none := by
  intro m
  induction m with
  | nil =>
    intro k h
    rfl
  | cons p rest ih =>
    intro k h
    obtain ⟨k', v'⟩ := p
    simp only [List.map_cons, List.mem_cons] at h
    push_neg at h
    have hne : ¬k' = k := fun hh => h.1 hh.symm
    simp [lookupA, hne, ih k h.2]

theorem mem_keys_insertA {α : Type} :
    ∀ (m : List (Nat × α)) (k : Nat) (v : α) (k' : Nat),
    k' ∈ (insertA m k v).map Prod.fst ↔ k' ∈ m.map Prod.fst ∨ k' = k := by
  intro m
  induction m with
  | nil =>
    intro k v k'
    simp [insertA]
  | cons p rest ih =>
    intro k v k'
    obtain ⟨k'', v''⟩ := p
    by_cases h : k'' = k
    · subst h
      simp [insertA]
      tauto
    · simp [insertA, h, ih]
      tauto

theorem nodup_keys_insertA {α : Type} :
    ∀ (m : List (Nat × α)) (k : Nat) (v : α),
    (m.map Prod.fst).Nodup → ((insertA m k v).map Prod.fst).Nodup := by
  intro m
  induction m with
  | nil =>
    intro k v h
    simp [insertA]
  | cons p rest ih =>
    intro k v h
    obtain ⟨k'', v''⟩ := p
    simp only [List.map_cons, List.nodup_cons] at h
    by_cases h2 : k'' = k
    · subst h2
      simp [insertA, List.nodup_cons, h.1, h.2]
    · simp only [insertA, h2, if_false, List.map_cons, List.nodup_cons]
      refine ⟨?_, ih k v h.2⟩
      rw [mem_keys_insertA]
      push_neg
      exact ⟨h.1, h2⟩

theorem lookup_refresh_stats_aux
    (utilQ : Nat → Option (List ProcessUtilizationSample)) :
    ∀ (ds : List Nat) (m : List (Nat × List ProcessUtilizationSample))
      (slot : Nat),
    lookupA (ds.foldl (fun m s => insertA m s ((utilQ s).getD [])) m) slot =
      if slot ∈ ds then some ((utilQ slot).getD []) else lookupA m slot := by
  intro ds
  induction ds with
  | nil =>
    intro m slot
    simp
  | cons d ds ih =>
    intro m slot
    rw [List.foldl_cons, ih]
    by_cases hds : slot ∈ ds
    · simp [hds]
    · by_cases hd : slot = d
      · subst hd
        simp [hds, lookupA_insertA_self]
      · simp [hds, hd, lookupA_insertA_ne _ _ _ _ hd]

theorem lookup_refresh_infos_aux (gfxQ compQ : Nat → Option (List ProcessInfo)) :
    ∀ (ds : List Nat) (m : List (Nat × List ProcessInfo)) (slot : Nat),
    lookupA (ds.foldl
      (fun m s => insertA m s (((gfxQ s).getD []) ++ ((compQ s).getD []))) m)
        slot =
      if slot ∈ ds then some (((gfxQ slot).getD []) ++ ((compQ slot).getD []))
      else lookupA m slot := by
  intro ds
  induction ds with
  | nil =>
    intro m slot
    simp
  | cons d ds ih =>
    intro m slot
    rw [List.foldl_cons, ih]
    by_cases hds : slot ∈ ds
    · simp [hds]
    · by_cases hd : slot = d
      · subst hd
        simp [hds, lookupA_insertA_self]
      · simp [hds, hd, lookupA_insertA_ne _ _ _ _ hd]

theorem lookup_gpu_stats_all_aux
    (sc : List (Nat × List ProcessUtilizationSample))
    (ic : List (Nat × List ProcessInfo)) (pid slot : Nat)
    (st : GpuUsageStats) (hok : nvidia_gpu_stats sc ic pid slot = Except.ok st) :
    ∀ (ds : List Nat) (m : List (Nat × GpuUsageStats)),
    lookupA (ds.foldl
      (fun m s =>
        match nvidia_gpu_stats sc ic pid s with
        | Except.ok stats => insertA m s stats
        | Except.error _ => m) m) slot =
      if slot ∈ ds then some st else lookupA m slot := by
  intro ds
  induction ds with
  | nil =>
    intro m
    simp
  | cons d ds ih =>
    intro m
    rw [List.foldl_cons]
    by_cases hd : slot = d
    · subst hd
      rw [hok]
      rw [ih]
      by_cases hds : slot ∈ ds
      · simp [hds]
      · simp [hds, lookupA_insertA_self]
    · cases hcall : nvidia_gpu_stats sc ic pid d with
      | ok stats =>
        rw [ih]
        by_cases hds : slot ∈ ds
        · simp [hds, hd]
        · simp [hds, hd, lookupA_insertA_ne _ _ _ _ hd]
      | error e =>
        rw [ih]
        simp [hd]

theorem nodup_keys_gpu_stats_all_aux
    (sc : List (Nat × List ProcessUtilizationSample))
    (ic : List (Nat × List ProcessInfo)) (pid : Nat) :
    ∀ (ds : List Nat) (m : List (Nat × GpuUsageStats)),
    (m.map Prod.fst).Nodup →
    ((ds.foldl
      (fun m s =>
        match nvidia_gpu_stats sc ic pid s with
        | Except.ok stats => insertA m s stats
        | Except.error _ => m) m).map Prod.fst).Nodup := by
  intro ds
  induction ds with
  | nil =>
    intro m h
    exact h
  | cons d ds ih =>
    intro m h
    rw [List.foldl_cons]
    cases hcall : nvidia_gpu_stats sc ic pid d with
    | ok stats => exact ih _ (nodup_keys_insertA m d stats h)
    | error e => exact ih _ h

theorem gpu_merge_cons (other : List (Nat × GpuUsageStats))
    (p : Nat × GpuUsageStats) (rest : List (Nat × GpuUsageStats)) :
    gpu_usage_stats_merge other (p :: rest) =
      gpu_usage_stats_merge (insertA other p.1 p.2) rest := rfl

theorem lookup_merge_of_none
    (nv : List (Nat × GpuUsageStats)) :
    ∀ (other : List (Nat × GpuUsageStats)) (slot : Nat),
    lookupA nv slot = none →
    lookupA (gpu_usage_stats_merge other nv) slot = lookupA other slot := by
  induction nv with
  | nil =>
    intro other slot h
    rfl
  | cons p rest ih =>
    intro other slot h
    obtain ⟨k, u⟩ := p
    by_cases hk : k = slot
    · exfalso
      simp [lookupA, hk] at h
    · simp only [lookupA, hk, if_false] at h
      rw [gpu_merge_cons]
      rw [ih _ _ h]
      exact lookupA_insertA_ne _ _ _ _ (fun hh => hk hh.symm)

theorem lookup_merge_of_some
    (nv : List (Nat × GpuUsageStats)) :
    ∀ (other : List (Nat × GpuUsageStats)) (slot : Nat) (v : GpuUsageStats),
    (nv.map Prod.fst).Nodup → lookupA nv slot = some v →
    lookupA (gpu_usage_stats_merge other nv) slot = some v := by
  induction nv with
  | nil =>
    intro other slot v hnd h
    exact absurd h (by simp [lookupA])
  | cons p rest ih =>
    intro other slot v hnd h
    obtain ⟨k, u⟩ := p
    simp only [List.map_cons, List.nodup_cons] at hnd
    rw [gpu_merge_cons]
    by_cases hk : k = slot
    · subst hk
      have hv : u = v := by simpa [lookupA] using h
      subst hv
      have hrest : lookupA rest k = none :=
        lookupA_eq_none_of_not_mem rest k hnd.1
      rw [lookup_merge_of_none rest _ _ hrest]
      exact lookupA_insertA_self other k u
    · simp only [lookupA, hk, if_false] at h
      exact ih _ _ _ hnd.2 h

theorem nvidia_gpu_stats_ok_of_cached
    (sc : List (Nat × List ProcessUtilizationSample))
    (ic : List (Nat × List ProcessInfo)) (pid slot : Nat)
    (samples : List ProcessUtilizationSample) (infos : List ProcessInfo)
    (hs : lookupA sc slot = some samples)
    (hi : lookupA ic slot = some infos) :
    ∃ st, nvidia_gpu_stats sc ic pid slot = Except.ok st ∧
      st.nvidia = true ∧
      (samples.filter (fun s => s.pid = pid) = [] →
       infos.filter (fun i => i.pid = pid) = [] →
       st = { gfx := 0, mem := 0, enc := 0, dec := 0, nvidia := true }) := by
  have hok : nvidia_gpu_stats sc ic pid slot = Except.ok
      { gfx := ((reduceUtil ((samples.filter (fun s => s.pid = pid)).map
          (fun s => (s.smUtil, s.encUtil, s.decUtil)))).getD (0, 0, 0)).1
        mem := ((infos.filter (fun i => i.pid = pid)).map
          usedGpuMemoryBytes).foldl addU64 0
        enc := ((reduceUtil ((samples.filter (fun s => s.pid = pid)).map
          (fun s => (s.smUtil, s.encUtil, s.decUtil)))).getD (0, 0, 0)).2.1
        dec := ((reduceUtil ((samples.filter (fun s => s.pid = pid)).map
          (fun s => (s.smUtil, s.encUtil, s.decUtil)))).getD (0, 0, 0)).2.2
        nvidia := true } := by
    simp only [nvidia_gpu_stats, hs, hi]
  refine ⟨_, hok, rfl, ?_⟩
  intro h1 h2
  simp only [h1, h2, List.map_nil, List.foldl_nil, reduceUtil]
  rfl

/-- C10: after a cache refresh, the merged per-process GPU map has one
entry — with the nvidia flag set — for every enumerated NVIDIA device slot,
even for processes with no activity there: when no utilization sample and no
memory record match the pid, the entry is the all-zero stats record rather
than being absent. -/
theorem nvidia_slot_always_present
    (devices : List Nat) (utilQ : Nat → Option (List ProcessUtilizationSample))
    (gfxQ compQ : Nat → Option (List ProcessInfo)) (pid : Nat)
    (other : List (Nat × GpuUsageStats)) (slot : Nat) (hdev : slot ∈ devices) :
    ∃ stats,
      lookupA (gpu_usage_stats_merge other
        (nvidia_gpu_stats_all (nvidia_process_stats devices utilQ)
          (nvidia_process_infos devices gfxQ compQ) devices pid)) slot =
        some stats ∧
      stats.nvidia = true ∧
      (((utilQ slot).getD []).filter (fun s => s.pid = pid) = [] →
       ((((gfxQ slot).getD []) ++ ((compQ slot).getD [])).filter
         (fun i => i.pid = pid)) = [] →
       stats = { gfx := 0, mem := 0, enc := 0, dec := 0, nvidia := true }) := by
  have hsc : lookupA (nvidia_process_stats devices utilQ) slot =
      some ((utilQ slot).getD []) := by
    unfold nvidia_process_stats
    rw [lookup_refresh_stats_aux]
    simp [hdev]
  have hic : lookupA (nvidia_process_infos devices gfxQ compQ) slot =
      some (((gfxQ slot).getD []) ++ ((compQ slot).getD [])) := by
    unfold nvidia_process_infos
    rw [lookup_refresh_infos_aux]
    simp [hdev]
  obtain ⟨st, hok, hnv, hzero⟩ :=
    nvidia_gpu_stats_ok_of_cached _ _ pid slot _ _ hsc hic
  have hall : lookupA (nvidia_gpu_stats_all
      (nvidia_process_stats devices utilQ)
      (nvidia_process_infos devices gfxQ compQ) devices pid) slot = some st := by
    unfold nvidia_gpu_stats_all
    rw [lookup_gpu_stats_all_aux _ _ pid slot st hok]
    simp [hdev]
  have hnd := nodup_keys_gpu_stats_all_aux
    (nvidia_process_stats devices utilQ)
    (nvidia_process_infos devices gfxQ compQ) pid devices [] (by simp)
  refine ⟨st, ?_, hnv, hzero⟩
  exact lookup_merge_of_some _ other slot st hnd hall

theorem nvidia_slot_always_present_witness :
    ∃ stats,
      lookupA (gpu_usage_stats_merge []
        (nvidia_gpu_stats_all (nvidia_process_stats [0] (fun _ => none))
          (nvidia_process_infos [0] (fun _ => none) (fun _ => none)) [0] 5)) 0 =
        some stats ∧
      stats.nvidia = true ∧
      ((((fun _ => (none : Option (List ProcessUtilizationSample))) 0).getD
        []).filter (fun s => s.pid = 5) = [] →
       (((((fun _ => (none : Option (List ProcessInfo))) 0).getD []) ++
         (((fun _ => (none : Option (List ProcessInfo))) 0).getD [])).filter
           (fun i => i.pid = 5)) = [] →
       stats = { gfx := 0, mem := 0, enc := 0, dec := 0, nvidia := true }) :=
  nvidia_slot_always_present [0] (fun _ => none) (fun _ => none) (fun _ => none)
    5 [] 0 (by decide)

end Resources
